import Mathlib

/-!
Verification of the connection-pool / pooled-client core of the
`justinwongcn/etherscan` repository (package `internal/ethereum`).

The Go code is shallowly embedded: the pool state (`sync.Pool` idle set plus
the `connCount` counter of `Client`) becomes an explicit `PoolState` record,
connections become numeric ids handed out by a freshness counter, and every
interaction with the environment (the `node.NewClient` factory, the liveness
probe, per-address balance lookups) is a parameter, since those are external
collaborators of the repository.  The `int32` counter is modelled as `Int`;
the claims under study involve only boundedly many operations, so two's
complement wrap-around of the counter is not reachable and is not modelled.
-/

namespace Etherscan

/-- A pooled node connection (`node.Client` in the Go source), identified by
a numeric id; fresh connections produced by the factory receive ids from the
`nextId` freshness counter of the pool state. -/
abbrev Conn := Nat

/-- State of `Client`'s connection pool: the configuration field `maxConns`,
the checked-out counter `connCount` (`int32` in Go, modelled as `Int`),
the idle set held by the `sync.Pool` (`connPool`), and the freshness counter
for ids of newly created connections. -/
structure PoolState where
  maxConns : Int
  connCount : Int
  idle : List Conn
  nextId : Nat
deriving DecidableEq

/-- Error message of `getConnection` when the pool is exhausted
(`"connection pool is full (max: %d)"`). -/
def poolFullMsg (m : Int) : String :=
  "connection pool is full (max: " ++ toString m ++ ")"

/-- Error message of `getConnection` when `connPool.Get` returns nil
(`"failed to get connection from pool"`). -/
def poolGetFailMsg : String := "failed to get connection from pool"

/-- Behaviour of `c.connPool.Get()`: hand out an idle connection when one is
available, otherwise invoke the `New` factory (`node.NewClient`), which
either produces a fresh connection or fails (returning nil).  Whether the
factory succeeds is an environment input `factoryOk`. -/
def poolGet (s : PoolState) (factoryOk : Bool) : Option Conn × PoolState :=
  match s.idle with
  | c :: rest => (some c, { s with idle := rest })
  | [] =>
    if factoryOk then (some s.nextId, { s with nextId := s.nextId + 1 })
    else (none, s)

/-- `Client.getConnection` (pool.go): fail when the checked-out counter has
reached `maxConns`; otherwise take a connection from the `sync.Pool`
(failing if the pool's factory fails) and increment the counter. -/
def getConnection (s : PoolState) (factoryOk : Bool) :
    Except String Conn × PoolState :=
  if s.connCount ≥ s.maxConns then
    (Except.error (poolFullMsg s.maxConns), s)
  else
    match poolGet s factoryOk with
    | (none, s') => (Except.error poolGetFailMsg, s')
    | (some c, s') => (Except.ok c, { s' with connCount := s'.connCount + 1 })

/-- `Client.releaseConnection` (pool.go): no-op on a nil connection;
otherwise decrement the checked-out counter and put the connection back into
the idle set. -/
def releaseConnection (s : PoolState) (conn : Option Conn) : PoolState :=
  match conn with
  | none => s
  | some c => { s with connCount := s.connCount - 1, idle := c :: s.idle }

/-- One caller-visible pool operation: an acquire (with the environment's
verdict on the connection factory) or a release of a (possibly nil)
connection. -/
inductive PoolOp where
  | acquire (factoryOk : Bool)
  | release (conn : Option Conn)
deriving DecidableEq

/-- Effect of one pool operation on the pool state. -/
def applyOp (s : PoolState) (op : PoolOp) : PoolState :=
  match op with
  | .acquire fok => (getConnection s fok).2
  | .release c => releaseConnection s c

/-- Sequential execution of a list of pool operations. -/
def runPool (s : PoolState) (ops : List PoolOp) : PoolState :=
  ops.foldl applyOp s

/-- A fresh pool: checked-out count zero, empty idle set. -/
def freshPool (m : Int) : PoolState :=
  { maxConns := m, connCount := 0, idle := [], nextId := 0 }

theorem poolGet_maxConns (s : PoolState) (fok : Bool) :
    (poolGet s fok).2.maxConns = s.maxConns := by
  unfold poolGet
  split
  · rfl
  · split <;> rfl

theorem poolGet_connCount (s : PoolState) (fok : Bool) :
    (poolGet s fok).2.connCount = s.connCount := by
  unfold poolGet
  split
  · rfl
  · split <;> rfl

theorem applyOp_maxConns (s : PoolState) (op : PoolOp) :
    (applyOp s op).maxConns = s.maxConns := by
  cases op with
  | acquire fok =>
    show (getConnection s fok).2.maxConns = s.maxConns
    unfold getConnection
    by_cases hfull : s.connCount ≥ s.maxConns
    · simp [hfull]
    · rcases hpg : poolGet s fok with ⟨oc, s'⟩
      have hm : s'.maxConns = s.maxConns := by
        have := poolGet_maxConns s fok
        rw [hpg] at this; exact this
      cases oc <;> simp [hfull, hpg, hm]
  | release c =>
    cases c <;> rfl

theorem applyOp_cap (s : PoolState) (op : PoolOp)
    (h : s.connCount ≤ s.maxConns) :
    (applyOp s op).connCount ≤ s.maxConns := by
  cases op with
  | acquire fok =>
    unfold applyOp getConnection
    by_cases hfull : s.connCount ≥ s.maxConns
    · simpa [hfull] using h
    · rcases hpg : poolGet s fok with ⟨oc, s'⟩
      have hc : s'.connCount = s.connCount := by
        have := poolGet_connCount s fok
        rw [hpg] at this; exact this
      cases oc <;> simp [hfull, hpg, hc] <;> omega
  | release c =>
    cases c with
    | none => exact h
    | some c => simp only [applyOp, releaseConnection]; omega

theorem runPool_cap (s : PoolState) (ops : List PoolOp)
    (h : s.connCount ≤ s.maxConns) :
    (runPool s ops).connCount ≤ (runPool s ops).maxConns := by
  induction ops generalizing s with
  | nil => exact h
  | cons op rest ih =>
    have hmax := applyOp_maxConns s op
    have hcap := applyOp_cap s op h
    exact ih (applyOp s op) (by rw [hmax]; exact hcap)

theorem runPool_maxConns (s : PoolState) (ops : List PoolOp) :
    (runPool s ops).maxConns = s.maxConns := by
  induction ops generalizing s with
  | nil => rfl
  | cons op rest ih =>
    calc (runPool (applyOp s op) rest).maxConns
        = (applyOp s op).maxConns := ih (applyOp s op)
      _ = s.maxConns := applyOp_maxConns s op

/-- C1.  Starting from a fresh pool, no sequence of `getConnection` /
`releaseConnection` operations drives the checked-out counter above
`maxConns`; when the counter already equals `maxConns`, `getConnection`
returns the pool-exhausted error and leaves the whole state (counter and
idle set) unchanged; when the counter is below `maxConns` and a connection
can be produced (an idle one exists or the factory succeeds), it returns a
connection and increments the counter by one.  (The model is a pure
function, so the exhausted case returns immediately rather than blocking.) -/
theorem pool_cap_invariant (m : Int) (hm : 0 ≤ m) (ops : List PoolOp)
    (s : PoolState) (fok : Bool) :
    (runPool (freshPool m) ops).connCount ≤ m
    ∧ (s.connCount = s.maxConns →
        getConnection s fok = (Except.error (poolFullMsg s.maxConns), s))
    ∧ (s.connCount < s.maxConns → (s.idle ≠ [] ∨ fok = true) →
        ∃ c, (getConnection s fok).1 = Except.ok c
          ∧ (getConnection s fok).2.connCount = s.connCount + 1) := by
  refine ⟨?_, ?_, ?_⟩
  · have h := runPool_cap (freshPool m) ops (by simpa [freshPool] using hm)
    rw [runPool_maxConns] at h
    simpa [freshPool] using h
  · intro heq
    unfold getConnection
    simp [heq]
  · intro hlt havail
    unfold getConnection
    rcases hpg : poolGet s fok with ⟨oc, s'⟩
    have hc : s'.connCount = s.connCount := by
      have := poolGet_connCount s fok
      rw [hpg] at this; exact this
    cases oc with
    | none =>
      exfalso
      unfold poolGet at hpg
      cases hidle : s.idle with
      | cons c rest => rw [hidle] at hpg; simp at hpg
      | nil =>
        rw [hidle] at hpg
        rcases havail with h | h
        · exact h hidle
        · rw [h] at hpg; simp at hpg
    | some c =>
      refine ⟨c, ?_, ?_⟩
      · simp [not_le.mpr hlt, hpg]
      · simp [not_le.mpr hlt, hpg, hc]

/-- Witness for C1 at concrete instances: `maxConns = 2`, two acquires from
a fresh pool; a full pool rejecting the next acquire; and a non-full pool
granting one. -/
theorem pool_cap_invariant_witness :
    (runPool (freshPool 2) [PoolOp.acquire true, PoolOp.acquire true]).connCount ≤ 2
    ∧ getConnection ⟨2, 2, [], 0⟩ true =
        (Except.error (poolFullMsg 2), ⟨2, 2, [], 0⟩)
    ∧ (∃ c, (getConnection ⟨2, 1, [], 1⟩ true).1 = Except.ok c
        ∧ (getConnection ⟨2, 1, [], 1⟩ true).2.connCount = 1 + 1) :=
  ⟨(pool_cap_invariant 2 (by decide)
      [PoolOp.acquire true, PoolOp.acquire true] ⟨2, 2, [], 0⟩ true).1,
    (pool_cap_invariant 2 (by decide) [] ⟨2, 2, [], 0⟩ true).2.1 rfl,
    (pool_cap_invariant 2 (by decide) [] ⟨2, 1, [], 1⟩ true).2.2
      (by decide) (Or.inr rfl)⟩

/-- Observable events of a wrapper operation: a successful acquisition of a
pooled connection, its release, an upstream balance RPC (with the address
and the block reference actually passed to the node), and an upstream
transaction-receipt RPC. -/
inductive Ev where
  | acquire
  | release
  | upstream (addr : String) (tag : String)
  | receiptCall (txHash : String)
deriving DecidableEq

/-- Environment of the pooled client: the verdicts of the external
`go-ethlibs` collaborators.  `factoryOk` is whether `node.NewClient`
succeeds inside the pool factory, `validAddr` whether `eth.NewAddress`
accepts an address, `validTag` whether `eth.MustBlockNumberOrTag` accepts a
block reference, `balance` the outcome of `conn.GetBalance`, and `receipt`
the outcome of `conn.TransactionReceipt` (where `Except.ok none` means the
call succeeded but no receipt exists). -/
structure ClientEnv where
  factoryOk : Bool
  validAddr : String → Bool
  validTag : String → Bool
  balance : String → String → Except String Nat
  receipt : String → Except String (Option Nat)

/-- Error wrapper of `withConnection` (`"failed to get connection: %v"`). -/
def connFailMsg (e : String) : String := "failed to get connection: " ++ e

/-- `Client.withConnection` (client.go): acquire a connection, run the work
function on it, and release the connection (the Go `defer` guarantees the
release on every exit path of the work function).  The work function
returns its result together with the upstream events it performs. -/
def withConnection {α : Type} (s : PoolState) (fok : Bool)
    (fn : Conn → Except String α × List Ev) :
    Except String α × PoolState × List Ev :=
  match getConnection s fok with
  | (Except.error e, s') => (Except.error (connFailMsg e), s', [])
  | (Except.ok conn, s') =>
    let r := fn conn
    (r.1, releaseConnection s' (some conn), Ev.acquire :: r.2 ++ [Ev.release])

/-- `getDefaultNumberOrTag` (client.go): an empty block reference becomes
"latest"; anything else is passed through unchanged. -/
def getDefaultNumberOrTag (numberOrTag : String) : String :=
  if numberOrTag = "" then "latest" else numberOrTag

/-- Error message for an address rejected by `eth.NewAddress`; the wrapped
library error text is opaque to this development. -/
def invalidAddrMsg : String := "invalid ethereum address"

/-- Error message for a rejected block reference
(`"invalid block number or tag: %s"`, formatted with the original,
un-normalized argument as in the Go source). -/
def invalidTagMsg (t : String) : String := "invalid block number or tag: " ++ t

/-- `Client.GetBalance` (client.go): validate the address, normalize and
validate the block reference, then fetch the balance through
`withConnection`. -/
def GetBalance (env : ClientEnv) (s : PoolState) (address numberOrTag : String) :
    Except String Nat × PoolState × List Ev :=
  if ¬ env.validAddr address then
    (Except.error invalidAddrMsg, s, [])
  else
    let nt := getDefaultNumberOrTag numberOrTag
    if ¬ env.validTag nt then
      (Except.error (invalidTagMsg numberOrTag), s, [])
    else
      withConnection s env.factoryOk fun _ =>
        match env.balance address nt with
        | Except.ok b => (Except.ok b, [Ev.upstream address nt])
        | Except.error e => (Except.error e, [Ev.upstream address nt])

/-- Modelled from the spec: the block-tag constants (`BlockLatest`,
`BlockEarliest`, `BlockPending`) are declared in a types file that is not
among the provided sources; the spec's glossary fixes the tags as
"latest", "earliest" and "pending". -/
def BlockLatest : String := "latest"

/-- Modelled from the spec: see `BlockLatest`. -/
def BlockEarliest : String := "earliest"

/-- Modelled from the spec: see `BlockLatest`. -/
def BlockPending : String := "pending"

/-- Decimal parsing as performed by `big.Int.SetString(x, 10)`: an optional
sign followed by at least one decimal digit. -/
def parseDecInt (x : String) : Option Int :=
  let core : List Char → Option Nat := fun ds =>
    if ds ≠ [] ∧ ds.all Char.isDigit then
      some (ds.foldl (fun n c => 10 * n + (c.toNat - 48)) 0)
    else none
  match x.toList with
  | '+' :: rest => (core rest).map Int.ofNat
  | '-' :: rest => (core rest).map (fun n => -(n : Int))
  | ds => (core ds).map Int.ofNat

/-- Lower-case hexadecimal rendering of an integer, as produced by Go's
`fmt.Sprintf("%x", blockNum)` on a `big.Int`. -/
def intToHex (i : Int) : String :=
  if i < 0 then "-" ++ String.mk (Nat.toDigits 16 i.natAbs)
  else String.mk (Nat.toDigits 16 i.natAbs)

/-- `ParseBlockParameter` (block_parameter.go): empty input defaults to
`BlockLatest`; the three tags are case-normalized; a string starting with
"0x" passes through; otherwise the input must parse as a decimal block
number and is re-rendered as hex. -/
def ParseBlockParameter (blockHashOrNumber : String) : Except String String :=
  if blockHashOrNumber = "" then Except.ok BlockLatest
  else
    let low := blockHashOrNumber.toLower
    if low = BlockLatest ∨ low = BlockEarliest ∨ low = BlockPending then
      Except.ok low
    else if 2 ≤ blockHashOrNumber.length ∧ blockHashOrNumber.take 2 = "0x" then
      Except.ok blockHashOrNumber
    else
      match parseDecInt blockHashOrNumber with
      | none => Except.error ("invalid block parameter: " ++ blockHashOrNumber)
      | some i => Except.ok ("0x" ++ intToHex i)

theorem poolGet_none_frame (s : PoolState) (fok : Bool)
    (h : (poolGet s fok).1 = none) : poolGet s fok = (none, s) := by
  rcases s with ⟨m, cc, idle, nid⟩
  cases idle with
  | cons c rest => simp [poolGet] at h
  | nil =>
    cases fok
    · rfl
    · simp [poolGet] at h

theorem getConnection_error_frame (s : PoolState) (fok : Bool) (e : String)
    (h : (getConnection s fok).1 = Except.error e) :
    (getConnection s fok).2 = s := by
  rcases s with ⟨m, cc, idle, nid⟩
  by_cases hfull : cc ≥ m
  · simp [getConnection, hfull]
  · cases idle with
    | cons c rest => simp [getConnection, poolGet, hfull] at h
    | nil =>
      cases fok
      · simp [getConnection, poolGet, hfull]
      · simp [getConnection, poolGet, hfull] at h

theorem getConnection_ok_count (s : PoolState) (fok : Bool) (c : Conn)
    (h : (getConnection s fok).1 = Except.ok c) :
    (getConnection s fok).2.connCount = s.connCount + 1 := by
  rcases s with ⟨m, cc, idle, nid⟩
  by_cases hfull : cc ≥ m
  · simp [getConnection, hfull] at h
  · cases idle with
    | cons c' rest => simp [getConnection, poolGet, hfull]
    | nil =>
      cases fok
      · simp [getConnection, poolGet, hfull] at h
      · simp [getConnection, poolGet, hfull]

theorem withConnection_error_eq {α : Type} (s : PoolState) (fok : Bool)
    (fn : Conn → Except String α × List Ev) (e : String)
    (he : (getConnection s fok).1 = Except.error e) :
    withConnection s fok fn = (Except.error (connFailMsg e), s, []) := by
  have hframe := getConnection_error_frame s fok e he
  have h1 : getConnection s fok =
      ((getConnection s fok).1, (getConnection s fok).2) := rfl
  have hpair : getConnection s fok = (Except.error e, s) := by
    rw [h1, he, hframe]
  unfold withConnection
  rw [hpair]

theorem withConnection_ok_eq {α : Type} (s : PoolState) (fok : Bool)
    (fn : Conn → Except String α × List Ev) (c : Conn)
    (hc : (getConnection s fok).1 = Except.ok c) :
    withConnection s fok fn =
      ((fn c).1, releaseConnection (getConnection s fok).2 (some c),
        Ev.acquire :: (fn c).2 ++ [Ev.release]) := by
  have h1 : getConnection s fok =
      ((getConnection s fok).1, (getConnection s fok).2) := rfl
  have hpair : getConnection s fok =
      (Except.ok c, (getConnection s fok).2) := by
    conv_lhs => rw [h1]
    rw [hc]
  unfold withConnection
  rw [hpair]

/-- C4.  `withConnection`: when acquisition fails, the result is a
connection error, the pool state is untouched, and the work function is not
run (the outcome is the same for every work function); when acquisition
succeeds, the connection is released on every exit path — the checked-out
counter after the call equals its value at entry in all cases — and the
result is exactly the work function's result (error or value). -/
theorem withConnection_spec {α : Type} (s : PoolState) (fok : Bool)
    (fn fn' : Conn → Except String α × List Ev) :
    (withConnection s fok fn).2.1.connCount = s.connCount
    ∧ (∀ e, (getConnection s fok).1 = Except.error e →
        withConnection s fok fn = (Except.error (connFailMsg e), s, [])
        ∧ (withConnection s fok fn).1 = (withConnection s fok fn').1)
    ∧ (∀ c, (getConnection s fok).1 = Except.ok c →
        (withConnection s fok fn).1 = (fn c).1
        ∧ (withConnection s fok fn).2.1 =
            releaseConnection (getConnection s fok).2 (some c)) := by
  refine ⟨?_, ?_, ?_⟩
  · cases hr : (getConnection s fok).1 with
    | error e =>
      rw [withConnection_error_eq s fok fn e hr]
    | ok c =>
      rw [withConnection_ok_eq s fok fn c hr]
      have hcount := getConnection_ok_count s fok c hr
      simp only [releaseConnection]
      omega
  · intro e he
    refine ⟨withConnection_error_eq s fok fn e he, ?_⟩
    rw [withConnection_error_eq s fok fn e he,
      withConnection_error_eq s fok fn' e he]
  · intro c hc
    refine ⟨?_, ?_⟩
    · rw [withConnection_ok_eq s fok fn c hc]
    · rw [withConnection_ok_eq s fok fn c hc]

/-- Witness for C4 at concrete inputs: a pool with one idle connection and
a work function returning 7 for the success clauses, and an exhausted pool
(`maxConns = 0`) for the acquisition-failure clause. -/
theorem withConnection_spec_witness :
    (withConnection ⟨3, 0, [5], 6⟩ true
        (fun _ => (Except.ok 7, []))).2.1.connCount = 0
    ∧ withConnection ⟨0, 0, [], 0⟩ true (fun _ => (Except.ok 7, [])) =
        (Except.error (connFailMsg (poolFullMsg 0)), ⟨0, 0, [], 0⟩, [])
    ∧ (withConnection ⟨3, 0, [5], 6⟩ true (fun _ => (Except.ok 7, []))).1 =
        Except.ok 7
    ∧ (withConnection ⟨3, 0, [5], 6⟩ true (fun _ => (Except.ok 7, []))).2.1 =
        releaseConnection (getConnection ⟨3, 0, [5], 6⟩ true).2 (some 5) :=
  ⟨(withConnection_spec ⟨3, 0, [5], 6⟩ true (fun _ => (Except.ok 7, []))
      (fun _ => (Except.error "boom", []))).1,
    ((withConnection_spec ⟨0, 0, [], 0⟩ true (fun _ => (Except.ok 7, []))
      (fun _ => (Except.error "boom", []))).2.1 (poolFullMsg 0) rfl).1,
    ((withConnection_spec ⟨3, 0, [5], 6⟩ true (fun _ => (Except.ok 7, []))
      (fun _ => (Except.error "boom", []))).2.2 5 rfl).1,
    ((withConnection_spec ⟨3, 0, [5], 6⟩ true (fun _ => (Except.ok 7, []))
      (fun _ => (Except.error "boom", []))).2.2 5 rfl).2⟩

/-- C6.  Block-reference normalization: `getDefaultNumberOrTag` maps the
empty string to "latest" and leaves every non-empty reference unchanged;
`ParseBlockParameter` likewise maps the empty string to `BlockLatest`; and
`GetBalance` invoked with an empty block reference performs its upstream
call with "latest" (the upstream event records the normalized tag). -/
theorem blockref_normalization (t : String) (ht : t ≠ "")
    (env : ClientEnv) (s : PoolState) (a : String) (c : Conn)
    (ha : env.validAddr a = true) (hv : env.validTag "latest" = true)
    (hacq : (getConnection s env.factoryOk).1 = Except.ok c) :
    getDefaultNumberOrTag "" = "latest"
    ∧ getDefaultNumberOrTag t = t
    ∧ ParseBlockParameter "" = Except.ok BlockLatest
    ∧ (GetBalance env s a "").2.2 =
        [Ev.acquire, Ev.upstream a "latest", Ev.release] := by
  refine ⟨rfl, by simp [getDefaultNumberOrTag, ht], rfl, ?_⟩
  have hred : GetBalance env s a "" =
      withConnection s env.factoryOk fun _ =>
        match env.balance a "latest" with
        | Except.ok b => (Except.ok b, [Ev.upstream a "latest"])
        | Except.error e => (Except.error e, [Ev.upstream a "latest"]) := by
    simp [GetBalance, getDefaultNumberOrTag, ha, hv]
  rw [hred, withConnection_ok_eq s env.factoryOk _ c hacq]
  cases henv : env.balance a "latest" <;> simp [henv]

/-- Witness for C6 at concrete inputs. -/
theorem blockref_normalization_witness :
    ("5" : String) ≠ ""
    ∧ (getDefaultNumberOrTag "" = "latest"
      ∧ getDefaultNumberOrTag "5" = "5"
      ∧ ParseBlockParameter "" = Except.ok BlockLatest
      ∧ (GetBalance
          ⟨true, fun _ => true, fun _ => true,
            fun _ _ => Except.ok 0, fun _ => Except.ok none⟩
          ⟨4, 0, [9], 0⟩ "0xabc" "").2.2 =
            [Ev.acquire, Ev.upstream "0xabc" "latest", Ev.release]) :=
  ⟨by decide, blockref_normalization "5" (by decide)
    ⟨true, fun _ => true, fun _ => true,
      fun _ _ => Except.ok 0, fun _ => Except.ok none⟩
    ⟨4, 0, [9], 0⟩ "0xabc" 9 rfl rfl rfl⟩

/-- Error message of `GetBalances` for an empty address list. -/
def emptyListMsg : String := "address list is empty"

/-- Error message of `GetBalances` for an over-long address list
(`"too many addresses: %d (max: %d)"`). -/
def tooManyMsg (n : Nat) (m : Int) : String :=
  "too many addresses: " ++ toString n ++ " (max: " ++ toString m ++ ")"

/-- Error wrapper used by the per-address task for a failed upstream lookup
(`"failed to get balance for %s: %v"`). -/
def balanceFailMsg (addr e : String) : String :=
  "failed to get balance for " ++ addr ++ ": " ++ e

/-- The per-address task spawned by `GetBalances` via `g.Go` (client.go):
acquire a connection, then validate the address, then call the upstream
balance RPC; the deferred release runs on every exit path after the
acquisition succeeded. -/
def balanceTask (env : ClientEnv) (s : PoolState) (addr nt : String) :
    Except String Nat × PoolState × List Ev :=
  match getConnection s env.factoryOk with
  | (Except.error e, s') => (Except.error (connFailMsg e), s', [])
  | (Except.ok conn, s') =>
    if ¬ env.validAddr addr then
      (Except.error invalidAddrMsg, releaseConnection s' (some conn),
        [Ev.acquire, Ev.release])
    else
      match env.balance addr nt with
      | Except.error e =>
        (Except.error (balanceFailMsg addr e), releaseConnection s' (some conn),
          [Ev.acquire, Ev.upstream addr nt, Ev.release])
      | Except.ok b =>
        (Except.ok b, releaseConnection s' (some conn),
          [Ev.acquire, Ev.upstream addr nt, Ev.release])

/-- Assignment `result[addr] = balance` on the Go result map, represented
as an association list (a duplicate address overwrites its entry). -/
def upsert (m : List (String × Nat)) (k : String) (v : Nat) :
    List (String × Nat) :=
  match m with
  | [] => [(k, v)]
  | (k', v') :: rest =>
    if k' = k then (k, v) :: rest else (k', v') :: upsert rest k v

/-- Execution of the errgroup of per-address tasks, linearized in list
order: every task runs to completion (the errgroup waits for all of them),
successful results are merged into the shared map, and the first error is
retained. -/
def runTasks (env : ClientEnv) (nt : String) :
    List String → PoolState → List (String × Nat) → Option String → List Ev →
      List (String × Nat) × Option String × PoolState × List Ev
  | [], s, acc, ferr, evs => (acc, ferr, s, evs)
  | addr :: rest, s, acc, ferr, evs =>
    match balanceTask env s addr nt with
    | (Except.ok b, s', tevs) =>
      runTasks env nt rest s' (upsert acc addr b) ferr (evs ++ tevs)
    | (Except.error e, s', tevs) =>
      runTasks env nt rest s' acc (some (ferr.getD e)) (evs ++ tevs)

/-- Result of `GetBalances` as returned by the Go function: the map return
value (`nil` on failure), the error return value, plus the final pool state
and the trace of observable events of the whole call. -/
structure GBOut where
  balances : Option (List (String × Nat))
  err : Option String
  state : PoolState
  trace : List Ev
deriving DecidableEq

/-- Resolution of the variadic `maxAddresses` argument of `GetBalances`:
the default of 5 applies when the argument is omitted or non-positive. -/
def maxAddrLimit (maxAddresses : Option Int) : Int :=
  match maxAddresses with
  | some v => if v > 0 then v else 5
  | none => 5

/-- `Client.GetBalances` (client.go): reject an empty list, resolve the
address cap and reject an over-long list, normalize and validate the block
reference, then fan out one task per address and wait for all; on any task
error the whole batch returns `nil` and that error. -/
def getBalances (env : ClientEnv) (s : PoolState) (addresses : List String)
    (numberOrTag : String) (maxAddresses : Option Int) : GBOut :=
  if addresses.length = 0 then
    ⟨none, some emptyListMsg, s, []⟩
  else
    let maxAddr := maxAddrLimit maxAddresses
    if (addresses.length : Int) > maxAddr then
      ⟨none, some (tooManyMsg addresses.length maxAddr), s, []⟩
    else
      let nt := getDefaultNumberOrTag numberOrTag
      if ¬ env.validTag nt then
        ⟨none, some (invalidTagMsg numberOrTag), s, []⟩
      else
        let r := runTasks env nt addresses s [] none []
        match r.2.1 with
        | some e => ⟨none, some e, r.2.2.1, r.2.2.2⟩
        | none => ⟨some r.1, none, r.2.2.1, r.2.2.2⟩

/-- C5.  `GetBalances` on an empty list fails with the empty-input error,
and on a list longer than the resolved cap fails with the too-many error,
in both cases with the pool untouched and no events (no validation of the
block reference, no acquisition, no network call ever happens, whatever the
environment); the cap resolves to 5 when the argument is omitted or
non-positive and to the argument itself when positive. -/
theorem getBalances_preconditions (env : ClientEnv) (s : PoolState)
    (addresses : List String) (numberOrTag : String)
    (maxAddresses : Option Int) (v : Int)
    (hlong : (addresses.length : Int) > maxAddrLimit maxAddresses) :
    getBalances env s [] numberOrTag maxAddresses =
      ⟨none, some emptyListMsg, s, []⟩
    ∧ (addresses ≠ [] →
        getBalances env s addresses numberOrTag maxAddresses =
          ⟨none, some (tooManyMsg addresses.length (maxAddrLimit maxAddresses)),
            s, []⟩)
    ∧ maxAddrLimit none = 5
    ∧ (v ≤ 0 → maxAddrLimit (some v) = 5)
    ∧ (0 < v → maxAddrLimit (some v) = v) := by
  refine ⟨rfl, ?_, rfl, ?_, ?_⟩
  · intro hne
    have hnz : ¬ addresses.length = 0 := by
      simpa [List.length_eq_zero] using hne
    simp [getBalances, hnz, hlong]
  · intro hv
    simp [maxAddrLimit, not_lt.mpr hv]
  · intro hv
    simp [maxAddrLimit, hv]

/-- Witness for C5: six addresses against the default cap of 5. -/
theorem getBalances_preconditions_witness :
    ((["a", "b", "c", "d", "e", "f"].length : Int) > maxAddrLimit none)
    ∧ (getBalances
        ⟨true, fun _ => true, fun _ => true,
          fun _ _ => Except.ok 0, fun _ => Except.ok none⟩
        (freshPool 100) [] "latest" none =
          ⟨none, some emptyListMsg, freshPool 100, []⟩
      ∧ ((["a", "b", "c", "d", "e", "f"] : List String) ≠ [] →
          getBalances
            ⟨true, fun _ => true, fun _ => true,
              fun _ _ => Except.ok 0, fun _ => Except.ok none⟩
            (freshPool 100) ["a", "b", "c", "d", "e", "f"] "latest" none =
              ⟨none,
                some (tooManyMsg ["a", "b", "c", "d", "e", "f"].length
                  (maxAddrLimit none)),
                freshPool 100, []⟩)
      ∧ maxAddrLimit none = 5
      ∧ ((0 : Int) ≤ 0 → maxAddrLimit (some 0) = 5)
      ∧ ((0 : Int) < 0 → maxAddrLimit (some 0) = 0)) :=
  ⟨by decide, getBalances_preconditions
    ⟨true, fun _ => true, fun _ => true,
      fun _ _ => Except.ok 0, fun _ => Except.ok none⟩
    (freshPool 100) ["a", "b", "c", "d", "e", "f"] "latest" none 0
    (by decide)⟩

theorem getConnection_pair_error (s : PoolState) (fok : Bool) (e : String)
    (he : (getConnection s fok).1 = Except.error e) :
    getConnection s fok = (Except.error e, s) := by
  have h1 : getConnection s fok =
      ((getConnection s fok).1, (getConnection s fok).2) := rfl
  rw [h1, he, getConnection_error_frame s fok e he]

theorem getConnection_pair_ok (s : PoolState) (fok : Bool) (c : Conn)
    (hc : (getConnection s fok).1 = Except.ok c) :
    getConnection s fok = (Except.ok c, (getConnection s fok).2) := by
  have h1 : getConnection s fok =
      ((getConnection s fok).1, (getConnection s fok).2) := rfl
  conv_lhs => rw [h1]
  rw [hc]

/-- Stub environment for concrete runs: every address and tag valid, the
balance lookup fails for address "b" and yields 3 otherwise. -/
def stubEnv : ClientEnv :=
  ⟨true, fun _ => true, fun t => t == "latest",
    fun a _ => if a = "b" then Except.error "boom" else Except.ok 3,
    fun _ => Except.ok none⟩

/-- Stub environment in which every address fails validation. -/
def badAddrEnv : ClientEnv :=
  ⟨true, fun _ => false, fun t => t == "latest",
    fun _ _ => Except.error "unreachable", fun _ => Except.ok none⟩

/-- C2.  When the per-address tasks of a within-limit, non-empty
`GetBalances` call produce any failure, the batch returns that (first)
error with a nil map; moreover, for every call whatsoever the map return
value is nil exactly when an error is returned, so a partial map never
escapes together with an error. -/
theorem getBalances_no_partial (env : ClientEnv) (s : PoolState)
    (addresses : List String) (numberOrTag : String)
    (maxAddresses : Option Int) (e : String)
    (hne : ¬ addresses.length = 0)
    (hlen : (addresses.length : Int) ≤ maxAddrLimit maxAddresses)
    (htag : env.validTag (getDefaultNumberOrTag numberOrTag) = true)
    (hfail : (runTasks env (getDefaultNumberOrTag numberOrTag)
        addresses s [] none []).2.1 = some e) :
    (getBalances env s addresses numberOrTag maxAddresses).balances = none
    ∧ (getBalances env s addresses numberOrTag maxAddresses).err = some e
    ∧ (∀ (env' : ClientEnv) (s' : PoolState) (addrs : List String)
        (t : String) (m : Option Int),
        ((getBalances env' s' addrs t m).balances = none
          ↔ (getBalances env' s' addrs t m).err ≠ none)) := by
  refine ⟨?_, ?_, ?_⟩
  · simp [getBalances, hne, not_lt.mpr hlen, htag, hfail]
  · simp [getBalances, hne, not_lt.mpr hlen, htag, hfail]
  · intro env' s' addrs t m
    unfold getBalances
    dsimp only
    split
    · simp
    · split
      · simp
      · split
        · simp
        · split <;> simp

/-- Witness for C2: two addresses where the lookup of "b" fails. -/
theorem getBalances_no_partial_witness :
    (¬ (["a", "b"] : List String).length = 0
      ∧ ((["a", "b"] : List String).length : Int) ≤ maxAddrLimit none
      ∧ stubEnv.validTag (getDefaultNumberOrTag "latest") = true
      ∧ (runTasks stubEnv (getDefaultNumberOrTag "latest")
          ["a", "b"] (freshPool 100) [] none []).2.1 =
            some (balanceFailMsg "b" "boom"))
    ∧ ((getBalances stubEnv (freshPool 100) ["a", "b"] "latest" none).balances
        = none
      ∧ (getBalances stubEnv (freshPool 100) ["a", "b"] "latest" none).err =
          some (balanceFailMsg "b" "boom")
      ∧ (∀ (env' : ClientEnv) (s' : PoolState) (addrs : List String)
          (t : String) (m : Option Int),
          ((getBalances env' s' addrs t m).balances = none
            ↔ (getBalances env' s' addrs t m).err ≠ none))) :=
  ⟨⟨by decide, by decide, by decide, by decide⟩,
    getBalances_no_partial stubEnv (freshPool 100) ["a", "b"] "latest" none
      (balanceFailMsg "b" "boom") (by decide) (by decide) (by decide)
      (by decide)⟩

/-- C3 is refuted as stated: in the per-address task of `GetBalances`, a
pooled connection is acquired before the address is validated, so an
address-validation failure is returned only after a connection was acquired
(and released).  Concretely, with every address invalid, the call returns
the validation error while its trace contains an acquisition event. -/
theorem task_validation_acquires_first :
    (getBalances badAddrEnv (freshPool 10) ["zzz"] "latest" none).err =
      some invalidAddrMsg
    ∧ Ev.acquire ∈
        (getBalances badAddrEnv (freshPool 10) ["zzz"] "latest" none).trace := by
  refine ⟨by decide, ?_⟩
  have htr : (getBalances badAddrEnv (freshPool 10) ["zzz"] "latest" none).trace
      = [Ev.acquire, Ev.release] := by decide
  rw [htr]
  simp

/-- C3 (amended).  Validation failures in the top-level wrappers are
returned before any acquisition or network call: `GetBalance` returns the
address or block-reference validation error with the pool untouched and an
empty event trace, and `GetBalances` returns the block-reference validation
error likewise.  The per-address task, by contrast, acquires its connection
first; on an invalid address it still performs no upstream call, returns
the validation error, and leaves the checked-out count as it found it
(acquire and release pair up), but a pooled connection is consumed. -/
theorem validation_before_network (env : ClientEnv) (s : PoolState)
    (addr nt : String) (hbad : env.validAddr addr = false) :
    (∀ (env' : ClientEnv) (s' : PoolState) (a t : String),
        env'.validAddr a = false →
        GetBalance env' s' a t = (Except.error invalidAddrMsg, s', []))
    ∧ (∀ (env' : ClientEnv) (s' : PoolState) (a t : String),
        env'.validAddr a = true →
        env'.validTag (getDefaultNumberOrTag t) = false →
        GetBalance env' s' a t = (Except.error (invalidTagMsg t), s', []))
    ∧ (∀ (env' : ClientEnv) (s' : PoolState) (addrs : List String)
        (t : String) (m : Option Int),
        ¬ addrs.length = 0 → ((addrs.length : Int) ≤ maxAddrLimit m) →
        env'.validTag (getDefaultNumberOrTag t) = false →
        getBalances env' s' addrs t m = ⟨none, some (invalidTagMsg t), s', []⟩)
    ∧ ((∀ x y, Ev.upstream x y ∉ (balanceTask env s addr nt).2.2)
        ∧ (balanceTask env s addr nt).2.1.connCount = s.connCount
        ∧ (∃ msg, (balanceTask env s addr nt).1 = Except.error msg)) := by
  refine ⟨?_, ?_, ?_, ?_⟩
  · intro env' s' a t ha
    simp [GetBalance, ha]
  · intro env' s' a t ha ht
    simp [GetBalance, ha, ht]
  · intro env' s' addrs t m hne hlen ht
    simp [getBalances, hne, not_lt.mpr hlen, ht]
  · cases hr : (getConnection s env.factoryOk).1 with
    | error e =>
      have hbt : balanceTask env s addr nt =
          (Except.error (connFailMsg e), s, []) := by
        unfold balanceTask
        rw [getConnection_pair_error s env.factoryOk e hr]
      rw [hbt]
      exact ⟨fun x y => by simp, rfl, ⟨connFailMsg e, rfl⟩⟩
    | ok c =>
      have hcount := getConnection_ok_count s env.factoryOk c hr
      have hbt : balanceTask env s addr nt =
          (Except.error invalidAddrMsg,
            releaseConnection (getConnection s env.factoryOk).2 (some c),
            [Ev.acquire, Ev.release]) := by
        unfold balanceTask
        rw [getConnection_pair_ok s env.factoryOk c hr]
        simp [hbad]
      rw [hbt]
      refine ⟨fun x y => by simp, ?_, ⟨invalidAddrMsg, rfl⟩⟩
      simp only [releaseConnection]
      omega

/-- Witness for the amended C3 at concrete inputs. -/
theorem validation_before_network_witness :
    badAddrEnv.validAddr "zzz" = false
    ∧ (GetBalance badAddrEnv (freshPool 10) "zzz" "latest" =
        (Except.error invalidAddrMsg, freshPool 10, [])
      ∧ (∀ x y, Ev.upstream x y ∉
          (balanceTask badAddrEnv (freshPool 10) "zzz" "latest").2.2)
      ∧ (balanceTask badAddrEnv (freshPool 10) "zzz" "latest").2.1.connCount =
          (freshPool 10).connCount) := by
  have h := validation_before_network badAddrEnv (freshPool 10) "zzz" "latest"
    (by decide)
  exact ⟨by decide,
    h.1 badAddrEnv (freshPool 10) "zzz" "latest" (by decide),
    h.2.2.2.1, h.2.2.2.2.1⟩

/-- Environment of one health-check tick: whether the pool factory succeeds
during acquisition, the liveness-probe verdict per connection
(`conn.BlockNumber`), and whether the replacement factory call
(`node.NewClient`) succeeds. -/
structure HealthEnv where
  factoryOk : Bool
  probeOk : Conn → Bool
  replOk : Bool

/-- `Client.checkConnections` (pool.go): acquire one connection (returning
silently if that fails), probe it, and on probe failure create a
replacement via the factory and put it into the pool (a factory failure is
silently dropped); the deferred release then returns the probed connection
to the pool.  The Go function has no error return, so the model returns
only the new pool state: no outcome propagates an error. -/
def checkConnections (s : PoolState) (env : HealthEnv) : PoolState :=
  match getConnection s env.factoryOk with
  | (Except.error _, s') => s'
  | (Except.ok conn, s') =>
    let s2 :=
      if env.probeOk conn then s'
      else if env.replOk then
        { s' with idle := s'.nextId :: s'.idle, nextId := s'.nextId + 1 }
      else s'
    releaseConnection s2 (some conn)

theorem checkConnections_error_eq (s : PoolState) (env : HealthEnv)
    (e : String) (he : (getConnection s env.factoryOk).1 = Except.error e) :
    checkConnections s env = s := by
  unfold checkConnections
  rw [getConnection_pair_error s env.factoryOk e he]

theorem checkConnections_ok_eq (s : PoolState) (env : HealthEnv) (c : Conn)
    (hc : (getConnection s env.factoryOk).1 = Except.ok c) :
    checkConnections s env =
      releaseConnection
        (if env.probeOk c then (getConnection s env.factoryOk).2
         else if env.replOk then
           { (getConnection s env.factoryOk).2 with
              idle := (getConnection s env.factoryOk).2.nextId ::
                (getConnection s env.factoryOk).2.idle,
              nextId := (getConnection s env.factoryOk).2.nextId + 1 }
         else (getConnection s env.factoryOk).2) (some c) := by
  unfold checkConnections
  rw [getConnection_pair_ok s env.factoryOk c hc]

/-- C7.  The health-check step returns normally on every outcome (its type
carries no error, and each case below pins down the resulting state): an
acquisition failure leaves the pool exactly as it was; the checked-out
counter is restored in every case; on a probe failure with a working
factory a fresh replacement connection is inserted into the idle set; and
on a factory failure (or a passing probe) the step is just the
acquire-release round trip. -/
theorem checkConnections_swallows (s : PoolState) (env : HealthEnv)
    (c : Conn) (e : String) :
    ((getConnection s env.factoryOk).1 = Except.error e →
        checkConnections s env = s)
    ∧ (checkConnections s env).connCount = s.connCount
    ∧ ((getConnection s env.factoryOk).1 = Except.ok c →
        env.probeOk c = false → env.replOk = true →
        (getConnection s env.factoryOk).2.nextId ∈ (checkConnections s env).idle)
    ∧ ((getConnection s env.factoryOk).1 = Except.ok c →
        (env.probeOk c = true ∨ env.replOk = false) →
        checkConnections s env =
          releaseConnection (getConnection s env.factoryOk).2 (some c)) := by
  refine ⟨fun he => checkConnections_error_eq s env e he, ?_, ?_, ?_⟩
  · cases hr : (getConnection s env.factoryOk).1 with
    | error e' => rw [checkConnections_error_eq s env e' hr]
    | ok c' =>
      have hcount := getConnection_ok_count s env.factoryOk c' hr
      rw [checkConnections_ok_eq s env c' hr]
      have hif : (if env.probeOk c' then (getConnection s env.factoryOk).2
          else if env.replOk then
            { (getConnection s env.factoryOk).2 with
               idle := (getConnection s env.factoryOk).2.nextId ::
                 (getConnection s env.factoryOk).2.idle,
               nextId := (getConnection s env.factoryOk).2.nextId + 1 }
          else (getConnection s env.factoryOk).2).connCount =
            (getConnection s env.factoryOk).2.connCount := by
        split
        · rfl
        · split <;> rfl
      simp only [releaseConnection]
      rw [hif]
      omega
  · intro hr hpf hro
    rw [checkConnections_ok_eq s env c hr]
    simp [hpf, hro, releaseConnection]
  · intro hr hcase
    rw [checkConnections_ok_eq s env c hr]
    rcases hcase with hp | hrp
    · simp [hp]
    · simp [hrp]

/-- Health environment whose probe always fails and whose factories
succeed. -/
def failProbeEnv : HealthEnv := ⟨true, fun _ => false, true⟩

/-- Witness for C7: a pool holding idle connection 7, probe failing, and an
exhausted pool for the acquisition-failure clause. -/
theorem checkConnections_swallows_witness :
    (checkConnections ⟨0, 0, [], 0⟩ failProbeEnv = ⟨0, 0, [], 0⟩)
    ∧ (checkConnections ⟨10, 0, [7], 0⟩ failProbeEnv).connCount = 0
    ∧ (getConnection ⟨10, 0, [7], 0⟩ failProbeEnv.factoryOk).2.nextId ∈
        (checkConnections ⟨10, 0, [7], 0⟩ failProbeEnv).idle :=
  ⟨(checkConnections_swallows ⟨0, 0, [], 0⟩ failProbeEnv 7
      (poolFullMsg 0)).1 rfl,
    (checkConnections_swallows ⟨10, 0, [7], 0⟩ failProbeEnv 7 "e").2.1,
    (checkConnections_swallows ⟨10, 0, [7], 0⟩ failProbeEnv 7 "e").2.2.1
      rfl rfl rfl⟩

/-- C8 is refuted as stated: after a failed probe on connection 7 the
deferred release puts 7 back into the idle set, so the failing connection
remains available and the very next acquire returns it again even though it
fails the same probe. -/
theorem failing_conn_stays :
    7 ∈ (checkConnections ⟨10, 0, [7], 0⟩ failProbeEnv).idle
    ∧ (getConnection (checkConnections ⟨10, 0, [7], 0⟩ failProbeEnv) true).1 =
        Except.ok 7
    ∧ failProbeEnv.probeOk 7 = false :=
  ⟨by decide, rfl, rfl⟩

theorem getConnection_head (s : PoolState) (fok : Bool) (c : Conn)
    (rest : List Conn) (hidle : s.idle = c :: rest)
    (hlt : s.connCount < s.maxConns) :
    (getConnection s fok).1 = Except.ok c := by
  unfold getConnection poolGet
  rw [hidle]
  simp [not_le.mpr hlt]

/-- C8 (amended).  After a probe failure with a working factory, a fresh
replacement connection is inserted into the idle set, but the failing
connection is not discarded: the deferred release returns it to the idle
set as well (in front of the replacement), so a subsequent acquire from a
non-exhausted pool returns the same failing connection again. -/
theorem probe_failure_replacement (s : PoolState) (env : HealthEnv)
    (c : Conn) (hr : (getConnection s env.factoryOk).1 = Except.ok c)
    (hpf : env.probeOk c = false) (hro : env.replOk = true) :
    (getConnection s env.factoryOk).2.nextId ∈ (checkConnections s env).idle
    ∧ c ∈ (checkConnections s env).idle
    ∧ (checkConnections s env).idle =
        c :: (getConnection s env.factoryOk).2.nextId ::
          (getConnection s env.factoryOk).2.idle
    ∧ (∀ fok',
        (checkConnections s env).connCount < (checkConnections s env).maxConns →
        (getConnection (checkConnections s env) fok').1 = Except.ok c) := by
  have hidle : (checkConnections s env).idle =
      c :: (getConnection s env.factoryOk).2.nextId ::
        (getConnection s env.factoryOk).2.idle := by
    rw [checkConnections_ok_eq s env c hr]
    simp [hpf, hro, releaseConnection]
  refine ⟨?_, ?_, hidle, ?_⟩
  · rw [hidle]; simp
  · rw [hidle]; simp
  · intro fok' hlt
    exact getConnection_head (checkConnections s env) fok' c _ hidle hlt

/-- Witness for the amended C8 at the concrete failing-probe instance. -/
theorem probe_failure_replacement_witness :
    ((getConnection ⟨10, 0, [7], 0⟩ failProbeEnv.factoryOk).1 = Except.ok 7)
    ∧ ((getConnection ⟨10, 0, [7], 0⟩ failProbeEnv.factoryOk).2.nextId ∈
        (checkConnections ⟨10, 0, [7], 0⟩ failProbeEnv).idle
      ∧ 7 ∈ (checkConnections ⟨10, 0, [7], 0⟩ failProbeEnv).idle
      ∧ (checkConnections ⟨10, 0, [7], 0⟩ failProbeEnv).idle =
          7 :: (getConnection ⟨10, 0, [7], 0⟩ failProbeEnv.factoryOk).2.nextId ::
            (getConnection ⟨10, 0, [7], 0⟩ failProbeEnv.factoryOk).2.idle
      ∧ (∀ fok',
          (checkConnections ⟨10, 0, [7], 0⟩ failProbeEnv).connCount <
            (checkConnections ⟨10, 0, [7], 0⟩ failProbeEnv).maxConns →
          (getConnection (checkConnections ⟨10, 0, [7], 0⟩ failProbeEnv) fok').1 =
            Except.ok 7)) :=
  ⟨rfl, probe_failure_replacement ⟨10, 0, [7], 0⟩ failProbeEnv 7
    rfl rfl rfl⟩

/-- Status of one goroutine executing `getConnection`: it has not yet run
its bound check; it has passed the bound check but not yet performed the
pool Get and the counter increment; or it has finished. -/
inductive GoPhase where
  | start
  | passed
  | done (ok : Bool)
deriving DecidableEq

/-- Shared pool state plus per-goroutine control state for concurrent
`getConnection` calls.  In the Go source the bound check
(`atomic.LoadInt32`) and the increment (`atomic.AddInt32`) are separate
atomic operations with no lock held across them, so they are separate
steps here; a schedule chooses which goroutine acts next.  The factory is
taken to succeed, so the nil-Get branch is never taken. -/
structure SysState where
  maxConns : Int
  connCount : Int
  idle : List Conn
  nextId : Nat
  gor : List GoPhase
deriving DecidableEq

/-- One atomic step of goroutine `i`. -/
def stepGo (s : SysState) (i : Nat) : SysState :=
  match s.gor.get? i with
  | some GoPhase.start =>
    if s.connCount ≥ s.maxConns then
      { s with gor := s.gor.set i (GoPhase.done false) }
    else
      { s with gor := s.gor.set i GoPhase.passed }
  | some GoPhase.passed =>
    match s.idle with
    | _c :: rest =>
      { s with idle := rest, connCount := s.connCount + 1, gor := s.gor.set i (GoPhase.done true) }
    | [] =>
      { s with nextId := s.nextId + 1, connCount := s.connCount + 1, gor := s.gor.set i (GoPhase.done true) }
  | _ => s

/-- Interleaved execution under a schedule. -/
def runSched (s : SysState) (sched : List Nat) : SysState :=
  sched.foldl stepGo s

/-- Number of goroutines whose acquire succeeded. -/
def successCount (s : SysState) : Nat :=
  (s.gor.filter (fun g => g == GoPhase.done true)).length

/-- Number of goroutines whose acquire failed with the pool-full error. -/
def failCount (s : SysState) : Nat :=
  (s.gor.filter (fun g => g == GoPhase.done false)).length

/-- C9 is contradicted by the code: `getConnection` checks the counter and
increments it in two separate atomic operations with no mutual exclusion
spanning them, so two concurrent acquires against a fresh pool with
`maxConns = 1` can both pass the check before either increments.  Under
that interleaving both succeed, none fails with pool-exhausted, and the
checked-out counter reaches 2 > maxConns — the claim requires exactly one
success, one failure, and a counter never above the cap. -/
theorem concurrent_acquire_race :
    successCount (runSched ⟨1, 0, [], 0, [GoPhase.start, GoPhase.start]⟩
      [0, 1, 0, 1]) = 2
    ∧ failCount (runSched ⟨1, 0, [], 0, [GoPhase.start, GoPhase.start]⟩
        [0, 1, 0, 1]) = 0
    ∧ (runSched ⟨1, 0, [], 0, [GoPhase.start, GoPhase.start]⟩
        [0, 1, 0, 1]).connCount = 2
    ∧ (runSched ⟨1, 0, [], 0, [GoPhase.start, GoPhase.start]⟩
        [0, 1, 0, 1]).maxConns = 1 := by
  decide

/-- Error message of `GetTransactionReceipt` for a malformed hash. -/
def invalidHashMsg : String :=
  "invalid transaction hash format: must be hex string starting with 0x"

/-- `Client.GetTransactionReceipt` (transaction sources): validate the hash
shape, fetch the receipt through `withConnection`, and translate an absent
receipt into a nil receipt with a nil error.  The result component is the
Go return pair (receipt, error); receipts are opaque and numbered. -/
def GetTransactionReceipt (env : ClientEnv) (s : PoolState) (txHash : String) :
    (Option Nat × Option String) × PoolState × List Ev :=
  if txHash.length < 2 ∨ txHash.take 2 ≠ "0x" then
    ((none, some invalidHashMsg), s, [])
  else
    match withConnection s env.factoryOk (fun _ =>
        match env.receipt txHash with
        | Except.ok r => (Except.ok r, [Ev.receiptCall txHash])
        | Except.error e => (Except.error e, [Ev.receiptCall txHash])) with
    | (Except.error e, s', evs) => ((none, some e), s', evs)
    | (Except.ok r, s', evs) =>
      match r with
      | none => ((none, none), s', evs)
      | some rc => ((some rc, none), s', evs)

/-- C10.  For a well-formed transaction hash, when the connection is
acquired and the upstream receipt lookup succeeds with no receipt,
`GetTransactionReceipt` returns a nil receipt together with a nil error:
absence of a receipt is not an error at the public interface. -/
theorem receipt_absent_not_error (env : ClientEnv) (s : PoolState)
    (txHash : String) (c : Conn)
    (hlen : 2 ≤ txHash.length) (hpre : txHash.take 2 = "0x")
    (hacq : (getConnection s env.factoryOk).1 = Except.ok c)
    (hrec : env.receipt txHash = Except.ok none) :
    (GetTransactionReceipt env s txHash).1 = (none, none) := by
  unfold GetTransactionReceipt
  have hcond : ¬ (txHash.length < 2 ∨ txHash.take 2 ≠ "0x") := by
    push_neg
    exact ⟨hlen, hpre⟩
  rw [if_neg hcond, withConnection_ok_eq s env.factoryOk _ c hacq]
  simp [hrec]

/-- Witness for C10: hash "0xabc" against the stub environment, whose
receipt lookup succeeds with no receipt. -/
theorem receipt_absent_not_error_witness :
    (2 ≤ ("0xabc" : String).length
      ∧ ("0xabc" : String).take 2 = "0x"
      ∧ (getConnection (freshPool 100) stubEnv.factoryOk).1 = Except.ok 0
      ∧ stubEnv.receipt "0xabc" = Except.ok none)
    ∧ (GetTransactionReceipt stubEnv (freshPool 100) "0xabc").1 =
        (none, none) :=
  ⟨⟨by decide, by decide, rfl, rfl⟩,
    receipt_absent_not_error stubEnv (freshPool 100) "0xabc" 0
      (by decide) (by decide) rfl rfl⟩

end Etherscan
